import Mathlib

/-
Verification of the sos-collector orchestration engine
(soscollector/sos_collector.py, version 1.3).

This file gives a shallow embedding of the parts of `SosCollector` that the
verified properties are about: cluster-option validation and override parsing
(`_validate_option`, `_parse_options`), node-list construction and reduction
(`get_nodes`, `reduce_node_list`), the collection scheduler's client-list
construction and success tally (`collect`, `_collect`), the master/no_local
setup in `prep`, cluster resolution (`determine_cluster`), and post-archive
cleanup (`cleanup`).

Python lists mutated in place become Lean lists threaded through functions;
calls to `self._exit(...)` and uncaught Python exceptions become `Except`
errors or explicit outcome constructors; Python string operations are
re-implemented character-wise so that every definition evaluates by `decide`
and `rfl`.
-/

namespace SosCollector

/-! ## String helpers

Python string operations used by the source, re-implemented over `List Char`
so that they compute structurally. -/

/-- Auxiliary for `splitChar`: Python `s.split(sep)` for a one-character
separator, over the character list.  `acc` holds the current field reversed. -/
def splitCharAux (sep : Char) : List Char → List Char → List (List Char)
  | [], acc => [acc.reverse]
  | c :: rest, acc =>
      if c = sep then acc.reverse :: splitCharAux sep rest []
      else splitCharAux sep rest (c :: acc)

/-- Python `s.split(sep)` for a single-character separator.  As in Python,
`splitChar c "" = [""]` and a trailing separator yields a trailing empty
field. -/
def splitChar (sep : Char) (s : String) : List String :=
  (splitCharAux sep s.toList []).map (fun cs => String.mk cs)

/-- Python `s.split(sep)[0]`: the prefix of `s` up to (not including) the
first occurrence of `sep`; the whole string when `sep` does not occur. -/
def splitHead (sep : Char) (s : String) : String :=
  String.mk (s.toList.takeWhile (fun c => c != sep))

/-- The short hostname used by `get_nodes`: Python
`hostname.split('.')[0]`. -/
def shortName (s : String) : String :=
  splitHead '.' s

/-- Python `s.lower()`, restricted to the ASCII case mapping (the only case
relevant for the option tokens compared by `_validate_option`). -/
def strLower (s : String) : String :=
  String.mk (s.toList.map Char.toLower)

/-! ## The Python remove-while-iterating loop

Both `get_nodes` (line 420) and `reduce_node_list` (line 400) run the pattern

  for n in lst:
      if p(n): lst.remove(n)

Python iterates by index over the mutating list: at index `i`, if the element
matches, `list.remove` deletes the first occurrence of that value and the
iterator then moves to index `i+1` of the shortened list, skipping the element
that slid into position `i`.  `removeLoopAux` models exactly this; the fuel
argument only bounds the iteration count, and `l.length` fuel is always
enough, because `i` grows by one per step while the length never grows. -/

/-- One Python `for n in lst: if p(n): lst.remove(n)` loop, indexed iteration
over the mutating list, with explicit fuel. -/
def removeLoopAux (p : String → Bool) : Nat → Nat → List String → List String
  | 0, _, l => l
  | fuel + 1, i, l =>
      if h : i < l.length then
        if p l[i] then removeLoopAux p fuel (i + 1) (l.erase l[i])
        else removeLoopAux p fuel (i + 1) l
      else l

/-- The Python remove-while-iterating loop, started at index 0. -/
def removeLoop (p : String → Bool) (l : List String) : List String :=
  removeLoopAux p l.length 0 l

/-! ## Configuration and node-list construction -/

/-- The slice of the `config` dict that node-list construction reads.
`master = none` models a falsy `config['master']` (no master designated);
`masterNodeHostname` models `self.master.hostname`, the hostname attribute of
the `SosNode` session opened to the master.  `hasCluster` models
`config['cluster'] is not None`. -/
structure Config where
  hostname : String
  no_local : Bool
  ip_addrs : List String
  master : Option String
  masterNodeHostname : String
  nodes : Option String
  hasCluster : Bool

/-- Lines 391-393 of `reduce_node_list`: remove (the first occurrence of) the
local hostname when it is present and local collection is disabled. -/
def reduceStep1 (cfg : Config) (l : List String) : List String :=
  if cfg.hostname ∈ l ∧ cfg.no_local = true then l.erase cfg.hostname else l

/-- Lines 394-396 of `reduce_node_list`: for each of the run's own IP
addresses, remove its first occurrence if present. -/
def reduceStep2 (cfg : Config) (l : List String) : List String :=
  cfg.ip_addrs.foldl (fun acc i => if i ∈ acc then acc.erase i else acc) l

/-- The predicate of the master-removal loop at line 401: an entry matching
the master session's hostname or the configured master address. -/
def masterPred (cfg : Config) (m : String) : String → Bool :=
  fun n => n == cfg.masterNodeHostname || n == m

/-- Lines 399-402 of `reduce_node_list`: when a master is designated, drop
master entries with the remove-while-iterating loop. -/
def reduceStep3 (cfg : Config) (l : List String) : List String :=
  match cfg.master with
  | none => l
  | some m => removeLoop (masterPred cfg m) l

/-- `SosCollector.reduce_node_list` (lines 388-404): remove the local
hostname when local collection is disabled, remove the run's own IP
addresses, remove master entries, then `list(set(n for n in lst if n))`:
drop falsy (empty) entries and deduplicate.  Python's `list(set(...))` has
unspecified order, so theorems compare results as sets unless the order is
forced; `dedup` keeps first occurrences as a canonical representative. -/
def reduce_node_list (cfg : Config) (node_list : List String) : List String :=
  ((reduceStep3 cfg (reduceStep2 cfg (reduceStep1 cfg node_list))).filter
      (fun n => n != "")).dedup

/-- `SosCollector.get_nodes_from_cluster` (lines 377-386): an enumeration
that raises or returns `None` is fatal (`_exit` with an empty message). -/
def get_nodes_from_cluster (enum : Option (List String)) :
    Except String (List String) :=
  match enum with
  | none => .error ""
  | some ns => .ok ns

/-- `SosCollector.get_nodes` (lines 406-424), the node-list computation:
abort when neither a master nor a cluster is available; take the base list
from `config['nodes']` (comma-separated) or from the cluster enumeration;
when no master is designated, run the remove-while-iterating loop that drops
entries whose short hostname equals the local short hostname and append the
full local hostname; finally reduce.  The `hostlen` display-width computation
of lines 425-428 has no effect on the node list and is not modelled. -/
def get_nodes (cfg : Config) (enum : Option (List String)) :
    Except String (List String) :=
  if cfg.master.isNone && !cfg.hasCluster then
    .error "Could not determine a cluster type and no list of nodes or master node was provided.\nAborting..."
  else
    match (match cfg.nodes with
           | some s => Except.ok (splitChar ',' s)
           | none => get_nodes_from_cluster enum) with
    | .error e => .error e
    | .ok base =>
        let l :=
          if cfg.master.isNone then
            removeLoop (fun node => shortName cfg.hostname == shortName node)
              base ++ [cfg.hostname]
          else base
        .ok (reduce_node_list cfg l)

/-! ## Concrete configurations used in counterexamples and witnesses -/

/-- Configuration exercising `get_nodes` with no master, a resolved cluster,
and a cluster enumeration that reports the local host under two aliases. -/
def cfgAlias : Config :=
  { hostname := "node1.example.com"
    no_local := false
    ip_addrs := []
    master := none
    masterNodeHostname := ""
    nodes := none
    hasCluster := true }

/-- Configuration exercising `reduce_node_list` with local collection
disabled and no master. -/
def cfgDup : Config :=
  { hostname := "h"
    no_local := true
    ip_addrs := []
    master := none
    masterNodeHostname := ""
    nodes := none
    hasCluster := true }

/-- Configuration exercising every branch of `reduce_node_list`: local
collection disabled, one own IP address and a designated master. -/
def cfgFull : Config :=
  { hostname := "h"
    no_local := true
    ip_addrs := ["10.0.0.1"]
    master := some "m"
    masterNodeHostname := "mh"
    nodes := none
    hasCluster := true }

/-! ## Cluster options: validation and override parsing -/

/-- The option types a cluster profile declares (`str` or `bool`). -/
inductive OptType where
  | tStr
  | tBool
  deriving DecidableEq

/-- The value held by a cluster option after parsing. -/
inductive OptValue where
  | ofStr (s : String)
  | ofBool (b : Bool)
  deriving DecidableEq

/-- A declared cluster option: name, declared type, current value. -/
structure ClusterOpt where
  name : String
  opt_type : OptType
  value : OptValue
  deriving DecidableEq

/-- A cluster option override given on the CLI: target cluster and option
name, the override's declared type, and its raw string value. -/
structure CliOpt where
  cluster : String
  name : String
  opt_type : OptType
  value : String
  deriving DecidableEq

/-- `SosCollector._validate_option` (lines 117-140).  For a non-boolean
declared option the override's declared type must match exactly and the
string value is taken as-is; for a boolean declared option only the
case-insensitive tokens true/on/false/off are accepted and converted.
`self._exit(msg)` is modelled as `Except.error msg`; the quotes around the
tokens in the source's message are elided. -/
def validate_option (defaultOpt : ClusterOpt) (cli : CliOpt) :
    Except String OptValue :=
  if defaultOpt.opt_type ≠ OptType.tBool then
    if defaultOpt.opt_type ≠ cli.opt_type then
      .error ("Invalid option type for " ++ cli.name)
    else
      .ok (.ofStr cli.value)
  else
    let val := strLower cli.value
    if val = "true" ∨ val = "on" ∨ val = "false" ∨ val = "off" then
      if val = "true" ∨ val = "on" then .ok (.ofBool true)
      else .ok (.ofBool false)
    else
      .error ("Invalid value for " ++ cli.name
        ++ ". Accepted values are: true, false, on, off")

/-- The inner loop of `_parse_options` (lines 106-111) over one profile's
ordered option list: every declared option whose name equals the override's
name is validated and overwritten; the returned flag is the loop's `match`
variable.  A validation exit propagates as an error. -/
def applyOverride (options : List ClusterOpt) (cli : CliOpt) :
    Except String (List ClusterOpt × Bool) :=
  match options with
  | [] => .ok ([], false)
  | o :: rest =>
      if o.name = cli.name then
        match validate_option o cli with
        | .error e => .error e
        | .ok v =>
            match applyOverride rest cli with
            | .error e => .error e
            | .ok (rest2, _) => .ok ({ o with value := v } :: rest2, true)
      else
        match applyOverride rest cli with
        | .error e => .error e
        | .ok (rest2, m) => .ok (o :: rest2, m)

/-- Ordered-dict lookup `self.clusters[key]`: the loaded profiles keyed by
cluster id. -/
def lookupCluster (clusters : List (String × List ClusterOpt)) (c : String) :
    Option (List ClusterOpt) :=
  match clusters with
  | [] => none
  | (k, v) :: rest => if k = c then some v else lookupCluster rest c

/-- Replace the option list of the profile keyed `c` (the in-place mutation
of the matched options, made functional). -/
def updateCluster (clusters : List (String × List ClusterOpt)) (c : String)
    (newOpts : List ClusterOpt) : List (String × List ClusterOpt) :=
  match clusters with
  | [] => []
  | (k, v) :: rest =>
      if k = c then (k, newOpts) :: rest
      else (k, v) :: updateCluster rest c newOpts

/-- One iteration of the `_parse_options` outer loop (lines 105-115):
`self.clusters[opt.cluster]` raises `KeyError` for an unknown cluster id
(modelled as an error), matching options are overwritten, and a missing
match is the fatal "Unknown option provided" exit. -/
def applyCliOpt (clusters : List (String × List ClusterOpt)) (cli : CliOpt) :
    Except String (List (String × List ClusterOpt)) :=
  match lookupCluster clusters cli.cluster with
  | none => .error ("KeyError: " ++ cli.cluster)
  | some opts =>
      match applyOverride opts cli with
      | .error e => .error e
      | .ok (opts2, matched) =>
          if matched then .ok (updateCluster clusters cli.cluster opts2)
          else .error ("Unknown option provided: " ++ cli.cluster ++ "."
              ++ cli.name)

/-- `SosCollector._parse_options` (lines 101-115) over the list of CLI
cluster option overrides. -/
def parse_options : List (String × List ClusterOpt) → List CliOpt →
    Except String (List (String × List ClusterOpt))
  | clusters, [] => .ok clusters
  | clusters, o :: rest =>
      match applyCliOpt clusters o with
      | .error e => .error e
      | .ok cl2 => parse_options cl2 rest

/-- Whether some loaded profile is keyed `c` and declares an option named
`n`. -/
def hasOption (clusters : List (String × List ClusterOpt)) (c n : String) :
    Bool :=
  match lookupCluster clusters c with
  | none => false
  | some opts => opts.any (fun o => o.name = n)

/-! ## The collection scheduler -/

/-- The orchestrator's view of one `SosNode` client: its address and
hostname, whether it is the local node, whether its session opened, the
value its `retrieved` flag has after `sosreport()` ran, and the value the
flag has before any run (`SosNode` construction is a collaborator call, so
these are environment data). -/
structure NodeState where
  address : String
  hostname : String
  isLocal : Bool
  connected : Bool
  sosSucceeds : Bool
  initRetrieved : Bool
  deriving DecidableEq

/-- The environment of one `collect` run: the master `SosNode` from `prep`,
the node list from `get_nodes`, the behaviour of `SosNode(node, config)`
(`none` when the constructor raises), and `config['no_local']`. -/
structure CollectEnv where
  masterNode : NodeState
  node_list : List String
  connect : String → Option NodeState
  no_local : Bool

/-- The per-node contribution to the client list in `collect` (lines
452-460): master aliases are skipped (`continue`), a constructor exception
is swallowed (`except: pass`), and an unconnected client is dropped. -/
def clientContribution (env : CollectEnv) (node : String) : Option NodeState :=
  if node == env.masterNode.address || node == env.masterNode.hostname then
    none
  else
    match env.connect node with
    | none => none
    | some c => if c.connected then some c else none

/-- The client list built by `collect` (lines 449-460): the master node
first when its session is open, then every node whose session opened. -/
def client_list (env : CollectEnv) : List NodeState :=
  (if env.masterNode.connected then [env.masterNode] else [])
    ++ env.node_list.filterMap (clientContribution env)

/-- `self.report_num` (line 462): the number of connected clients. -/
def report_num (env : CollectEnv) : Nat := (client_list env).length

/-- Whether `_collect` invokes `client.sosreport()` at all (lines 490-496):
always for a remote client; for the local client only when `no_local` is
unset. -/
def sosreportInvoked (no_local : Bool) (c : NodeState) : Bool :=
  if !c.isLocal then true else !no_local

/-- The value of `client.retrieved` when `_collect` tests it (line 497):
the post-`sosreport()` value when the task ran, the prior value
otherwise. -/
def taskRetrieved (no_local : Bool) (c : NodeState) : Bool :=
  if sosreportInvoked no_local c then c.sosSucceeds else c.initRetrieved

/-- The final `self.retrieved` tally: the pool maps `_collect` over
`client_list` once per client, and each task increments the tally exactly
when its client's `retrieved` flag is set (lines 497-498). -/
def retrievedTally (env : CollectEnv) : Nat :=
  (client_list env).foldl
    (fun acc c => if taskRetrieved env.no_local c then acc + 1 else acc) 0

/-- Whether a node's connection attempt fails during the initial open step:
the `SosNode` constructor raises, or returns an unconnected client. -/
def connectFails (env : CollectEnv) (node : String) : Bool :=
  match env.connect node with
  | none => true
  | some c => !c.connected

/-- The environment with `node` dropped from the node list. -/
def dropNode (env : CollectEnv) (node : String) : CollectEnv :=
  { env with node_list := env.node_list.filter (fun n => n != node) }

/-- Outcome of the tail of `collect` (lines 481-488). -/
inductive RunOutcome where
  | archived
  | exited (code : Nat)
  deriving DecidableEq

/-- Lines 483-487 of `collect`: build the archive only when at least one
sosreport was retrieved, else `_exit` with the default exit code 1. -/
def collectFinish (retrieved : Nat) : RunOutcome :=
  if retrieved > 0 then .archived else .exited 1

/-- The end-to-end outcome of `collect` for an environment. -/
def collect_outcome (env : CollectEnv) : RunOutcome :=
  collectFinish (retrievedTally env)

/-! ## Preparation and cluster resolution -/

/-- Lines 274-278 of `prep`: when a master is designated, `sos-collector`
connects to it and forces `config['no_local'] = True`; without a master the
local node probe is used and `no_local` is left alone.  (The connection is a
collaborator call and not modelled.) -/
def prep_master_step (cfg : Config) : Config :=
  match cfg.master with
  | some _ => { cfg with no_local := true }
  | none => cfg

/-- A loaded cluster profile as `determine_cluster` sees it: its name and
the result of its `check_enabled()` probe. -/
structure ClusterProfileState where
  name : String
  enabled : Bool
  deriving DecidableEq

/-- `SosCollector.determine_cluster` (lines 353-375): scan the loaded
profiles in order, select the first whose `check_enabled()` holds and stop;
otherwise leave `config['cluster']` unchanged.  The statements after `break`
at lines 372-375 are unreachable and have no executable counterpart. -/
def determine_cluster (profiles : List ClusterProfileState)
    (current : Option ClusterProfileState) : Option ClusterProfileState :=
  match profiles.find? (fun p => p.enabled) with
  | some p => some p
  | none => current

/-- Outcome of the cluster-resolution tail of `prep` (lines 283-288). -/
inductive PrepStep where
  | proceeds (cluster : ClusterProfileState)
  | exitAbort
  | attrError
  deriving DecidableEq

/-- Lines 283-288 of `prep`: `_exit` when no cluster was resolved and no
node list was given; otherwise `self.config['cluster'].setup()` runs, which
raises `AttributeError` when the resolved cluster is still `None`; only with
an actual cluster does the run proceed to `get_nodes`. -/
def prep_resolve (cluster : Option ClusterProfileState)
    (nodes : Option String) : PrepStep :=
  if cluster.isNone && nodes.isNone then .exitAbort
  else
    match cluster with
    | some c => .proceeds c
    | none => .attrError

/-! ## Post-archive cleanup -/

/-- The pattern handed to `re.search` by `cleanup` (line 546).  It is
written as a shell glob, not a regular expression. -/
def sosreportPattern : String := "*sosreport-*tar*"

/-- The fragment of Python regex compilation that `cleanup`'s pattern
exercises: a pattern whose first character is a repetition operator fails to
compile ("nothing to repeat at position 0"). -/
def rePatternCompiles (p : String) : Bool :=
  match p.toList with
  | [] => true
  | c :: _ => !(c == '*' || c == '+' || c == '?')

/-- Python `re.search(pat, f)` as `cleanup` uses it: compiling an invalid
pattern raises `re.error`.  The match semantics for valid patterns is never
reached by `cleanup` (its pattern does not compile) and is not modelled. -/
def reSearch (pat : String) (_f : String) : Except String Bool :=
  if rePatternCompiles pat then .ok false
  else .error "nothing to repeat at position 0"

/-- Result of `cleanup`: the whole run-created directory removed, the listed
files removed from a user-supplied directory, or an uncaught exception. -/
inductive CleanupResult where
  | removedAll
  | removedFiles (fs : List String)
  | raisedError (msg : String)
  deriving DecidableEq

/-- The per-file loop of `cleanup` (lines 545-547) over a user-supplied
directory: remove each file the pattern matches; an `re.error` escapes at
the first file tested. -/
def cleanupLoop : List String → List String → CleanupResult
  | [], removed => .removedFiles removed.reverse
  | f :: rest, removed =>
      match reSearch sosreportPattern f with
      | .error e => .raisedError e
      | .ok true => cleanupLoop rest (f :: removed)
      | .ok false => cleanupLoop rest removed

/-- `SosCollector.cleanup` (lines 536-547): a working directory created by
this run is removed entirely (`delete_tmp_dir`, lines 187-189); in a
user-supplied directory each listed file is tested against the
collected-report pattern with `re.search` and removed on a match. -/
def cleanup (tmp_dir_created : Bool) (files : List String) : CleanupResult :=
  if tmp_dir_created then .removedAll
  else cleanupLoop files []

/-! ## Concrete data for witnesses -/

/-- A boolean-declared cluster option. -/
def optBoolDecl : ClusterOpt :=
  { name := "offline", opt_type := OptType.tBool, value := OptValue.ofBool false }

/-- A boolean override with the invalid token `Maybe` (Scenario D). -/
def cliMaybe : CliOpt :=
  { cluster := "pacemaker", name := "offline", opt_type := OptType.tStr
    value := "Maybe" }

/-- A one-profile registry declaring only `pacemaker.offline`. -/
def clustersOne : List (String × List ClusterOpt) :=
  [("pacemaker", [optBoolDecl])]

/-- An override naming an option that no profile declares. -/
def cliUnknownName : CliOpt :=
  { cluster := "pacemaker", name := "bogus", opt_type := OptType.tStr
    value := "x" }

/-- A remote node whose session opens and whose sosreport succeeds. -/
def nodeA : NodeState :=
  { address := "a", hostname := "a", isLocal := false, connected := true
    sosSucceeds := true, initRetrieved := false }

/-- The local node probe with no open session. -/
def localProbeDown : NodeState :=
  { address := "localhost", hostname := "localhost", isLocal := true
    connected := false, sosSucceeds := false, initRetrieved := false }

/-- Scenario B environment: node set a, b; a connects and succeeds, b's
connection attempt raises. -/
def envB : CollectEnv :=
  { masterNode := localProbeDown
    node_list := ["a", "b"]
    connect := fun n => if n == "a" then some nodeA else none
    no_local := false }

/-- An environment in which every connection attempt raises. -/
def envNone : CollectEnv :=
  { masterNode := localProbeDown
    node_list := ["a", "b"]
    connect := fun _ => none
    no_local := false }

/-- A configuration with a designated master host. -/
def cfgMaster : Config :=
  { hostname := "h"
    no_local := false
    ip_addrs := []
    master := some "m"
    masterNodeHostname := "mh"
    nodes := none
    hasCluster := true }

/-- A connected local client. -/
def localNode : NodeState :=
  { address := "localhost", hostname := "localhost", isLocal := true
    connected := true, sosSucceeds := true, initRetrieved := false }

/-! ## Helper lemmas about the remove-while-iterating loop -/

/-- The loop only ever deletes elements. -/
theorem removeLoopAux_sublist (p : String → Bool) :
    ∀ (fuel i : Nat) (l : List String), List.Sublist (removeLoopAux p fuel i l) l := by
  intro fuel
  induction fuel with
  | zero => intro i l; exact List.Sublist.refl _
  | succ fuel ih =>
    intro i l
    rw [removeLoopAux]
    split
    · split
      · exact (ih (i + 1) _).trans (List.erase_sublist _ _)
      · exact ih (i + 1) l
    · exact List.Sublist.refl _

/-- If nothing in the list matches, the loop is the identity. -/
theorem removeLoopAux_id (p : String → Bool) :
    ∀ (fuel i : Nat) (l : List String), (∀ x ∈ l, p x = false) →
      removeLoopAux p fuel i l = l := by
  intro fuel
  induction fuel with
  | zero => intro i l _; rfl
  | succ fuel ih =>
    intro i l hp
    rw [removeLoopAux]
    split
    · next h =>
      split
      · next hpn => exact absurd hpn (by simp [hp _ (List.getElem_mem h)])
      · exact ih (i + 1) l hp
    · rfl

/-- If at most one element of the list matches, the loop removes every match:
no element of the result matches.  The `take i` hypothesis records that the
elements before the iterator position have already been inspected and found
not to match. -/
theorem removeLoopAux_no_match (p : String → Bool) :
    ∀ (fuel i : Nat) (l : List String),
      l.length ≤ fuel + i →
      (∀ x ∈ l.take i, p x = false) →
      l.countP p ≤ 1 →
      ∀ x ∈ removeLoopAux p fuel i l, p x = false := by
  intro fuel
  induction fuel with
  | zero =>
    intro i l hlen hinv _ x hx
    have hx' : x ∈ l := hx
    have ht : l.take i = l := List.take_of_length_le (by omega)
    exact hinv x (by rw [ht]; exact hx')
  | succ fuel ih =>
    intro i l hlen hinv hcount x hx
    rw [removeLoopAux] at hx
    split at hx
    · next h =>
      by_cases hpn : p l[i] = true
      · rw [if_pos hpn] at hx
        have hmem : l[i] ∈ l := List.getElem_mem h
        obtain ⟨l₁, l₂, _, hsplit, herase⟩ := List.exists_erase_eq hmem
        have hz : (l.erase l[i]).countP p = 0 := by
          have hc : l.countP p = l₁.countP p + (l₂.countP p + 1) := by
            rw [hsplit]
            simp [List.countP_cons, hpn]
          rw [herase, List.countP_append]
          omega
        have hx' : x ∈ l.erase l[i] :=
          (removeLoopAux_sublist p fuel (i + 1) _).subset hx
        have := List.countP_eq_zero.mp hz x hx'
        simpa using this
      · rw [if_neg hpn] at hx
        refine ih (i + 1) l (by omega) ?_ hcount x hx
        intro y hy
        rw [List.take_succ, List.getElem?_eq_getElem h] at hy
        rcases List.mem_append.mp hy with hy' | hy'
        · exact hinv y hy'
        · have : y = l[i] := by simpa using hy'
          subst this
          simpa using hpn
    · next h =>
      have ht : l.take i = l := List.take_of_length_le (by omega)
      exact hinv x (by rw [ht]; exact hx)

/-- `removeLoop` only ever deletes elements. -/
theorem removeLoop_sublist (p : String → Bool) (l : List String) :
    List.Sublist (removeLoop p l) l :=
  removeLoopAux_sublist p l.length 0 l

/-- `removeLoop` is the identity when nothing matches. -/
theorem removeLoop_id (p : String → Bool) (l : List String)
    (hp : ∀ x ∈ l, p x = false) : removeLoop p l = l :=
  removeLoopAux_id p l.length 0 l hp

/-- When at most one element matches, no element of the `removeLoop` result
matches. -/
theorem removeLoop_no_match (p : String → Bool) (l : List String)
    (hcount : l.countP p ≤ 1) : ∀ x ∈ removeLoop p l, p x = false :=
  removeLoopAux_no_match p l.length 0 l (by omega) (by simp) hcount

/-! ## Helper lemmas about the IP-removal fold -/

/-- The IP-removal fold only ever deletes elements. -/
theorem foldl_erase_sublist (ips : List String) :
    ∀ acc : List String,
      List.Sublist
        (ips.foldl (fun acc i => if i ∈ acc then acc.erase i else acc) acc)
        acc := by
  induction ips with
  | nil => intro acc; exact List.Sublist.refl _
  | cons j rest ih =>
    intro acc
    simp only [List.foldl_cons]
    split
    · exact (ih _).trans (List.erase_sublist _ _)
    · exact ih acc

/-- On a duplicate-free accumulator, the fold removes every listed IP. -/
theorem foldl_erase_not_mem (ips : List String) :
    ∀ acc : List String, acc.Nodup → ∀ i ∈ ips,
      i ∉ ips.foldl (fun acc j => if j ∈ acc then acc.erase j else acc) acc := by
  induction ips with
  | nil => intro acc _ i hi; exact absurd hi (List.not_mem_nil i)
  | cons j rest ih =>
    intro acc hnd i hi
    simp only [List.foldl_cons]
    have hstep : (if j ∈ acc then acc.erase j else acc).Nodup := by
      split
      · exact hnd.erase j
      · exact hnd
    rcases List.mem_cons.mp hi with rfl | hi'
    · intro hmem
      have hj : i ∉ (if i ∈ acc then acc.erase i else acc) := by
        split
        · exact hnd.not_mem_erase
        · assumption
      exact hj ((foldl_erase_sublist rest _).subset hmem)
    · exact ih _ hstep i hi'

/-- The fold is the identity when none of the IPs occur. -/
theorem foldl_erase_id (ips : List String) :
    ∀ acc : List String, (∀ i ∈ ips, i ∉ acc) →
      ips.foldl (fun acc j => if j ∈ acc then acc.erase j else acc) acc
        = acc := by
  induction ips with
  | nil => intro acc _; rfl
  | cons j rest ih =>
    intro acc h
    simp only [List.foldl_cons]
    rw [if_neg (h j (by simp))]
    exact ih acc fun i hi => h i (by simp [hi])

/-! ## Claim theorems: node-list construction -/

/-- C1: the claim fails on the code.  With no master designated and a cluster
enumeration reporting the local host under two adjacent aliases, `get_nodes`
removes entries from the list it is iterating, so the iterator skips
`node1.alias2`; the final node list keeps that alias even though its short
hostname equals the local short hostname, alongside the appended canonical
hostname. -/
theorem get_nodes_alias_survives :
    get_nodes cfgAlias (some ["node1.alias1", "node1.alias2"])
      = .ok ["node1.alias2", "node1.example.com"]
    ∧ shortName "node1.alias2" = shortName cfgAlias.hostname := by
  exact ⟨rfl, rfl⟩

/-- C2 counterexample: `reduce_node_list` is not idempotent.  With
`no_local` set and the local hostname appearing twice, the first application
removes only one copy (then deduplicates), and the second application removes
the survivor, so the resulting node sets differ. -/
theorem reduce_node_list_not_idempotent :
    ¬ ((reduce_node_list cfgDup (reduce_node_list cfgDup ["h", "h"])).toFinset
        = (reduce_node_list cfgDup ["h", "h"]).toFinset) := by
  decide

/-- C2 (amended): on a duplicate-free node list in which at most one entry
matches the designated master (its session hostname or configured address),
`reduce_node_list` is idempotent: a second application returns the first
application's list unchanged (hence the same set). -/
theorem reduce_node_list_idempotent (cfg : Config) (l : List String)
    (hnd : l.Nodup)
    (hm : ∀ m, cfg.master = some m → l.countP (masterPred cfg m) ≤ 1) :
    reduce_node_list cfg (reduce_node_list cfg l) = reduce_node_list cfg l := by
  have h1sub : List.Sublist (reduceStep1 cfg l) l := by
    unfold reduceStep1
    split
    · exact List.erase_sublist _ _
    · exact List.Sublist.refl _
  have h1nd : (reduceStep1 cfg l).Nodup := h1sub.nodup hnd
  have h2sub : List.Sublist (reduceStep2 cfg (reduceStep1 cfg l))
      (reduceStep1 cfg l) :=
    foldl_erase_sublist _ _
  have h3sub :
      List.Sublist (reduceStep3 cfg (reduceStep2 cfg (reduceStep1 cfg l)))
        (reduceStep2 cfg (reduceStep1 cfg l)) := by
    unfold reduceStep3
    split
    · exact List.Sublist.refl _
    · exact removeLoop_sublist _ _
  set r := reduce_node_list cfg l with hr
  have hrmem : ∀ x ∈ r,
      x ∈ reduceStep3 cfg (reduceStep2 cfg (reduceStep1 cfg l)) ∧ x ≠ "" := by
    intro x hx
    rw [hr] at hx
    unfold reduce_node_list at hx
    rw [List.mem_dedup, List.mem_filter] at hx
    exact ⟨hx.1, by simpa using hx.2⟩
  have hrnd : r.Nodup := by
    rw [hr]; unfold reduce_node_list; exact List.nodup_dedup _
  -- the local hostname is gone whenever no_local is set
  have hhost : cfg.no_local = true → cfg.hostname ∉ r := by
    intro hnl hmem
    have h1 : cfg.hostname ∉ reduceStep1 cfg l := by
      unfold reduceStep1
      split
      · exact hnd.not_mem_erase
      · next hcond =>
        intro hmem'
        exact hcond ⟨hmem', hnl⟩
    exact h1 (h2sub.subset (h3sub.subset (hrmem _ hmem).1))
  -- the run's own IP addresses are gone
  have hips : ∀ i ∈ cfg.ip_addrs, i ∉ r := by
    intro i hi hmem
    exact foldl_erase_not_mem cfg.ip_addrs _ h1nd i hi
      (h3sub.subset (hrmem _ hmem).1)
  -- master entries are gone
  have hmaster : ∀ m, cfg.master = some m →
      ∀ x ∈ r, masterPred cfg m x = false := by
    intro m hsome x hx
    have hcount : (reduceStep2 cfg (reduceStep1 cfg l)).countP
        (masterPred cfg m) ≤ 1 :=
      le_trans ((h2sub.trans h1sub).countP_le _) (hm m hsome)
    have hx3 := (hrmem _ hx).1
    rw [show reduceStep3 cfg (reduceStep2 cfg (reduceStep1 cfg l))
          = removeLoop (masterPred cfg m)
              (reduceStep2 cfg (reduceStep1 cfg l)) by
        unfold reduceStep3; rw [hsome]] at hx3
    exact removeLoop_no_match _ _ hcount x hx3
  -- the second application is the identity on r
  have hs1 : reduceStep1 cfg r = r := by
    unfold reduceStep1
    split
    · next hcond => exact absurd hcond.1 (hhost hcond.2)
    · rfl
  have hs2 : reduceStep2 cfg r = r :=
    foldl_erase_id _ _ fun i hi => hips i hi
  have hs3 : reduceStep3 cfg r = r := by
    unfold reduceStep3
    split
    · rfl
    · next m hsome => exact removeLoop_id _ _ (hmaster m hsome)
  have hfilter : r.filter (fun n => n != "") = r :=
    List.filter_eq_self.mpr fun a ha => by
      simpa using (hrmem a ha).2
  conv_lhs => rw [reduce_node_list, hs1, hs2, hs3, hfilter]
  exact List.dedup_eq_self.mpr hrnd

/-- Witness for the amended C2 theorem at a configuration that exercises the
local-hostname, IP and master removals. -/
theorem reduce_node_list_idempotent_witness :
    (["h", "a", "10.0.0.1", "m", "b"] : List String).Nodup
    ∧ reduce_node_list cfgFull
        (reduce_node_list cfgFull ["h", "a", "10.0.0.1", "m", "b"])
      = reduce_node_list cfgFull ["h", "a", "10.0.0.1", "m", "b"] :=
  ⟨by decide, reduce_node_list_idempotent cfgFull _ (by decide)
      (fun m hm => by
        have h := Option.some.inj hm
        subst h
        decide)⟩

/-! ## Helper lemmas about override parsing -/

/-- `applyOverride` only rewrites option values: the name sequence of the
option list is unchanged. -/
theorem applyOverride_names (cli : CliOpt) :
    ∀ (options opts2 : List ClusterOpt) (m : Bool),
      applyOverride options cli = .ok (opts2, m) →
      opts2.map ClusterOpt.name = options.map ClusterOpt.name := by
  intro options
  induction options with
  | nil =>
    intro opts2 m h
    simp only [applyOverride, Except.ok.injEq, Prod.mk.injEq] at h
    rw [← h.1]
  | cons o rest ih =>
    intro opts2 m h
    simp only [applyOverride] at h
    split at h
    · split at h
      · exact absurd h (by simp)
      · split at h
        · exact absurd h (by simp)
        · next rest2 m2 hrest =>
          simp only [Except.ok.injEq, Prod.mk.injEq] at h
          rw [← h.1]
          simp [ih rest2 m2 hrest]
    · split at h
      · exact absurd h (by simp)
      · next rest2 m2 hrest =>
        simp only [Except.ok.injEq, Prod.mk.injEq] at h
        rw [← h.1]
        simp [ih rest2 m2 hrest]

/-- When no declared option carries the override's name, the inner loop
succeeds without a match and without touching the list. -/
theorem applyOverride_no_match (cli : CliOpt) :
    ∀ options : List ClusterOpt,
      options.any (fun o => o.name = cli.name) = false →
      applyOverride options cli = .ok (options, false) := by
  intro options
  induction options with
  | nil => intro _; rfl
  | cons o rest ih =>
    intro h
    simp only [List.any_cons, Bool.or_eq_false_iff] at h
    unfold applyOverride
    rw [if_neg (of_decide_eq_false h.1), ih h.2]

/-- Two option lists with the same names answer name queries alike. -/
theorem any_name_congr (n : String) :
    ∀ l1 l2 : List ClusterOpt,
      l1.map ClusterOpt.name = l2.map ClusterOpt.name →
      l1.any (fun o => o.name = n) = l2.any (fun o => o.name = n) := by
  intro l1
  induction l1 with
  | nil =>
    intro l2 h
    have hl2 : l2 = [] := by
      cases l2 with
      | nil => rfl
      | cons o2 rest2 => simp at h
    subst hl2
    rfl
  | cons o rest ih =>
    intro l2 h
    cases l2 with
    | nil => simp at h
    | cons o2 rest2 =>
      simp only [List.map_cons, List.cons.injEq] at h
      simp only [List.any_cons, h.1, ih rest2 h.2]

/-- Lookup after an update: the updated key answers with the new options
(when it was present), every other key is untouched. -/
theorem lookupCluster_updateCluster (c : String) (newOpts : List ClusterOpt) :
    ∀ (clusters : List (String × List ClusterOpt)) (c2 : String),
      lookupCluster (updateCluster clusters c newOpts) c2
        = if c2 = c ∧ (lookupCluster clusters c).isSome
          then some newOpts else lookupCluster clusters c2 := by
  intro clusters
  induction clusters with
  | nil =>
    intro c2
    simp [updateCluster, lookupCluster]
  | cons kv rest ih =>
    intro c2
    obtain ⟨k, v⟩ := kv
    by_cases hk : k = c
    · rw [updateCluster, if_pos hk]
      rw [show lookupCluster ((k, v) :: rest) c = some v from by
        rw [lookupCluster, if_pos hk]]
      by_cases hc2 : k = c2
      · rw [lookupCluster, if_pos hc2]
        rw [if_pos ⟨hc2.symm.trans hk, rfl⟩]
      · rw [lookupCluster, if_neg hc2]
        rw [if_neg (fun hcond => hc2 (hk.trans hcond.1.symm))]
        rw [lookupCluster, if_neg hc2]
    · rw [updateCluster, if_neg hk]
      rw [show lookupCluster ((k, v) :: rest) c = lookupCluster rest c from by
        rw [lookupCluster, if_neg hk]]
      by_cases hc2 : k = c2
      · rw [lookupCluster, if_pos hc2]
        rw [if_neg (fun hcond => hk (hc2.trans hcond.1))]
        rw [lookupCluster, if_pos hc2]
      · rw [lookupCluster, if_neg hc2, ih c2]
        rw [show lookupCluster ((k, v) :: rest) c2 = lookupCluster rest c2 from by
          rw [lookupCluster, if_neg hc2]]

/-- A successful `applyCliOpt` never changes which cluster ids and option
names exist. -/
theorem applyCliOpt_preserves_hasOption
    (clusters : List (String × List ClusterOpt)) (cli : CliOpt)
    (cl2 : List (String × List ClusterOpt))
    (h : applyCliOpt clusters cli = .ok cl2) (c n : String) :
    hasOption cl2 c n = hasOption clusters c n := by
  unfold applyCliOpt at h
  split at h
  · exact absurd h (by simp)
  · next opts hlook =>
    split at h
    · exact absurd h (by simp)
    · next opts2 mflag happ =>
      split at h
      · simp only [Except.ok.injEq] at h
        subst h
        have hnames := applyOverride_names cli opts opts2 mflag happ
        unfold hasOption
        rw [lookupCluster_updateCluster]
        by_cases hcond : c = cli.cluster
            ∧ (lookupCluster clusters cli.cluster).isSome = true
        · rw [if_pos hcond, hcond.1, hlook]
          exact any_name_congr n opts2 opts hnames
        · rw [if_neg hcond]
      · exact absurd h (by simp)

/-! ## Helper lemmas about the scheduler -/

/-- Filtering a value out of the node list does not change a `filterMap`
whose function drops that value. -/
theorem filterMap_filter_ne (f : String → Option NodeState) (x : String)
    (hf : f x = none) :
    ∀ l : List String,
      (l.filter (fun n => n != x)).filterMap f = l.filterMap f := by
  intro l
  induction l with
  | nil => rfl
  | cons a rest ih =>
    by_cases ha : a = x
    · subst ha
      simp [List.filter_cons, List.filterMap_cons, hf, ih]
    · simp [List.filter_cons, List.filterMap_cons, ha, ih]

/-- The counting fold of `retrievedTally` is `countP` plus the
accumulator. -/
theorem foldl_count_eq_countP (p : NodeState → Bool) :
    ∀ (l : List NodeState) (acc : Nat),
      l.foldl (fun a c => if p c then a + 1 else a) acc
        = acc + l.countP p := by
  intro l
  induction l with
  | nil => intro acc; simp
  | cons c rest ih =>
    intro acc
    simp only [List.foldl_cons, List.countP_cons]
    split
    · rw [ih]
      omega
    · rw [ih]
      omega

/-! ## Claim theorems: option parsing -/

/-- C3: for a boolean-declared option, `_validate_option` accepts exactly
the case-insensitive tokens true/on (mapped to `True`) and false/off
(mapped to `False`); any other value is a fatal configuration error naming
the offending option. -/
theorem validate_option_bool (d : ClusterOpt) (cli : CliOpt)
    (hd : d.opt_type = OptType.tBool) :
    (validate_option d cli = .ok (.ofBool true)
      ↔ strLower cli.value = "true" ∨ strLower cli.value = "on")
    ∧ (validate_option d cli = .ok (.ofBool false)
      ↔ strLower cli.value = "false" ∨ strLower cli.value = "off")
    ∧ ((strLower cli.value ≠ "true" ∧ strLower cli.value ≠ "on"
        ∧ strLower cli.value ≠ "false" ∧ strLower cli.value ≠ "off") →
      validate_option d cli = .error ("Invalid value for " ++ cli.name
        ++ ". Accepted values are: true, false, on, off")) := by
  have hne : ¬ (d.opt_type ≠ OptType.tBool) := by rw [hd]; simp
  unfold validate_option
  rw [if_neg hne]
  by_cases h1 : strLower cli.value = "true"
  · simp [h1]
  · by_cases h2 : strLower cli.value = "on"
    · simp [h1, h2]
    · by_cases h3 : strLower cli.value = "false"
      · simp [h1, h2, h3]
      · by_cases h4 : strLower cli.value = "off"
        · simp [h1, h2, h3, h4]
        · simp [h1, h2, h3, h4]

/-- Witness for C3 at Scenario D: the boolean override value `Maybe` is
rejected with the message naming the option. -/
theorem validate_option_bool_witness :
    optBoolDecl.opt_type = OptType.tBool
    ∧ validate_option optBoolDecl cliMaybe
        = .error ("Invalid value for " ++ cliMaybe.name
            ++ ". Accepted values are: true, false, on, off") :=
  ⟨rfl, (validate_option_bool optBoolDecl cliMaybe rfl).2.2 (by decide)⟩

/-- C7: an override naming a cluster id or option name that no loaded
profile declares makes option parsing fail before any remote work: the
unknown-option `_exit`, or the `KeyError` raised by the cluster lookup,
regardless of the overrides processed before it. -/
theorem parse_options_rejects_unknown :
    ∀ (opts : List CliOpt) (clusters : List (String × List ClusterOpt))
      (cli : CliOpt), cli ∈ opts →
      hasOption clusters cli.cluster cli.name = false →
      ∃ e, parse_options clusters opts = .error e := by
  intro opts
  induction opts with
  | nil =>
    intro clusters cli hmem _
    exact absurd hmem (List.not_mem_nil cli)
  | cons o rest ih =>
    intro clusters cli hmem hbad
    rcases List.mem_cons.mp hmem with rfl | hmem'
    · have herr : ∃ e, applyCliOpt clusters cli = .error e := by
        unfold hasOption at hbad
        unfold applyCliOpt
        split at hbad
        · exact ⟨_, rfl⟩
        · next opts0 hlook =>
          refine ⟨"Unknown option provided: " ++ cli.cluster ++ "."
              ++ cli.name, ?_⟩
          rw [applyOverride_no_match cli opts0 hbad]
          rfl
      obtain ⟨e, he⟩ := herr
      refine ⟨e, ?_⟩
      unfold parse_options
      rw [he]
    · cases happ : applyCliOpt clusters o with
      | error e =>
        refine ⟨e, ?_⟩
        unfold parse_options
        rw [happ]
      | ok cl2 =>
        have hbad2 : hasOption cl2 cli.cluster cli.name = false := by
          rw [applyCliOpt_preserves_hasOption clusters o cl2 happ]
          exact hbad
        obtain ⟨e, he⟩ := ih cl2 cli hmem' hbad2
        refine ⟨e, ?_⟩
        unfold parse_options
        rw [happ]
        exact he

/-- Witness for C7: the override `pacemaker.bogus` names an undeclared
option and parsing fails. -/
theorem parse_options_rejects_unknown_witness :
    cliUnknownName ∈ [cliUnknownName]
    ∧ hasOption clustersOne cliUnknownName.cluster cliUnknownName.name = false
    ∧ ∃ e, parse_options clustersOne [cliUnknownName] = .error e :=
  ⟨by simp, by decide,
    parse_options_rejects_unknown [cliUnknownName] clustersOne cliUnknownName
      (by simp) (by decide)⟩

/-! ## Claim theorems: the scheduler -/

/-- C4: after all collection tasks complete, the archive is built exactly
when at least one sosreport was retrieved; a zero tally is fatal with exit
code 1 and no archive. -/
theorem collect_archive_iff_success (env : CollectEnv) :
    (collect_outcome env = .archived ↔ 0 < retrievedTally env)
    ∧ (retrievedTally env = 0 → collect_outcome env = .exited 1) := by
  unfold collect_outcome collectFinish
  constructor
  · split
    · next h => simp; omega
    · next h => simp; omega
  · intro h
    rw [h]
    rfl

/-- Witness for C4 at an environment where every connection fails: the
tally is zero and the run exits non-zero without an archive. -/
theorem collect_archive_iff_success_witness :
    retrievedTally envNone = 0 ∧ collect_outcome envNone = .exited 1 :=
  ⟨rfl, (collect_archive_iff_success envNone).2 rfl⟩

/-- C5: a node whose connection attempt fails during the initial open step
contributes nothing: dropping it from the node list leaves the client list,
the attempted count (`report_num`) and the success tally unchanged. -/
theorem failed_connection_contributes_nothing (env : CollectEnv)
    (node : String) (h : connectFails env node = true) :
    client_list (dropNode env node) = client_list env
    ∧ report_num (dropNode env node) = report_num env
    ∧ retrievedTally (dropNode env node) = retrievedTally env := by
  have hcontrib : clientContribution env node = none := by
    unfold clientContribution
    unfold connectFails at h
    split
    · rfl
    · cases hc : env.connect node with
      | none => rfl
      | some c =>
        rw [hc] at h
        simp only [Bool.not_eq_true'] at h
        simp [h]
  have hmain : client_list (dropNode env node) = client_list env := by
    show (if env.masterNode.connected then [env.masterNode] else [])
        ++ (env.node_list.filter (fun n => n != node)).filterMap
            (clientContribution env)
      = client_list env
    unfold client_list
    rw [filterMap_filter_ne (clientContribution env) node hcontrib]
  refine ⟨hmain, ?_, ?_⟩
  · unfold report_num
    rw [hmain]
  · show (client_list (dropNode env node)).foldl
        (fun acc c => if taskRetrieved env.no_local c then acc + 1 else acc) 0
      = retrievedTally env
    rw [hmain]
    rfl

/-- Witness for C5 at Scenario B: node set a, b with b failing to connect;
the client set is the single node a and the tally is 1 of 1. -/
theorem failed_connection_witness :
    connectFails envB "b" = true
    ∧ client_list (dropNode envB "b") = client_list envB
    ∧ client_list envB = [nodeA]
    ∧ report_num envB = 1
    ∧ retrievedTally envB = 1 :=
  ⟨rfl, (failed_connection_contributes_nothing envB "b" rfl).1, rfl, rfl, rfl⟩

/-- C6: the final tally equals the number of clients whose task left the
`retrieved` flag set, and never exceeds the number of connected clients:
each client's task increments the tally at most once. -/
theorem tally_counts_successes (env : CollectEnv) :
    retrievedTally env
      = (client_list env).countP (fun c => taskRetrieved env.no_local c)
    ∧ retrievedTally env ≤ report_num env := by
  have h := foldl_count_eq_countP (fun c => taskRetrieved env.no_local c)
    (client_list env) 0
  have hlen : (client_list env).countP
      (fun c => taskRetrieved env.no_local c) ≤ (client_list env).length :=
    List.countP_le_length (fun c => taskRetrieved env.no_local c)
  constructor
  · unfold retrievedTally
    rw [h]
    omega
  · unfold retrievedTally report_num
    rw [h]
    omega

/-! ## Claim theorems: preparation, resolution and cleanup -/

/-- C8: the claim fails on the code.  When no profile's `check_enabled`
holds and the user supplied an explicit node list, `prep` skips the explicit
abort but then calls `setup()` on the unresolved (`None`) cluster, raising
`AttributeError` instead of proceeding to node-list construction; only the
no-node-list case takes the intended abort. -/
theorem prep_crashes_with_explicit_nodes :
    prep_resolve (determine_cluster
        [{ name := "ovirt", enabled := false },
         { name := "pacemaker", enabled := false }] none) (some "n1,n2")
      = .attrError
    ∧ prep_resolve (determine_cluster
        [{ name := "ovirt", enabled := false },
         { name := "pacemaker", enabled := false }] none) none
      = .exitAbort :=
  ⟨rfl, rfl⟩

/-- C9: the claim fails on the code.  In a user-supplied working directory
`cleanup` hands the shell glob `*sosreport-*tar*` to `re.search`; the
pattern is not a valid regular expression, so the first file tested raises
`re.error` and nothing is removed — not even the sosreport tarball; only a
run-created directory is removed entirely. -/
theorem cleanup_raises_on_user_dir :
    cleanup false ["sosreport-node1.tar.xz", "notes.txt"]
      = .raisedError "nothing to repeat at position 0"
    ∧ cleanup true ["sosreport-node1.tar.xz", "notes.txt"] = .removedAll :=
  ⟨rfl, rfl⟩

/-- C10: when a master host is designated, `prep` forces `no_local`, and
with `no_local` forced `_collect` never invokes `sosreport()` on the local
client. -/
theorem master_mode_skips_local (cfg : Config) (c : NodeState)
    (hm : cfg.master.isSome = true) (hl : c.isLocal = true) :
    (prep_master_step cfg).no_local = true
    ∧ sosreportInvoked (prep_master_step cfg).no_local c = false := by
  have hstep : (prep_master_step cfg).no_local = true := by
    unfold prep_master_step
    cases hcm : cfg.master with
    | none => rw [hcm] at hm; simp at hm
    | some m => rfl
  refine ⟨hstep, ?_⟩
  unfold sosreportInvoked
  rw [hstep, hl]
  rfl

/-- Witness for C10: a designated master and a local client; local
collection is skipped. -/
theorem master_mode_skips_local_witness :
    cfgMaster.master.isSome = true ∧ localNode.isLocal = true
    ∧ (prep_master_step cfgMaster).no_local = true
    ∧ sosreportInvoked (prep_master_step cfgMaster).no_local localNode
        = false :=
  ⟨rfl, rfl, (master_mode_skips_local cfgMaster localNode rfl rfl).1,
    (master_mode_skips_local cfgMaster localNode rfl rfl).2⟩

end SosCollector
